import Mathlib

/-!
Verification of the JetSpec Pro brochure layout engine (`src/app.py`).

The file shallowly embeds the layout logic of `generate_brochure_pdf` and its
helpers: the gallery image fitter, the per-block bullet/plain segmentation of
`print_block`, the two-column section planner of `print_dual_column_blocks`
with both its explicit `y_cursor > 180` break and fpdf2's automatic page
break (trigger y = 195, continuation at the top margin 10, no logo stamp),
the spec-grid overflow rule, the maintenance-row filter, and the page
sequence as a function of the asset record, the selected images and the
branding variant.  Image-fit coordinates are rationals; the pagination flows
only ever add small integers, so they are modelled over `ℕ`, where every
value is exactly the source's float.
-/

/-- Displayed placement of a gallery image: size and top-left offset, in mm. -/
structure Placement where
  dispW : ℚ
  dispH : ℚ
  posX : ℚ
  posY : ℚ
  deriving DecidableEq, Repr

/-- Embeds the gallery scaling logic of `generate_brochure_pdf`
(src/app.py lines 420-443): the container is the full A4-landscape page
(297 x 210); aspect is `width/height`, defaulting to 1.0 when the intrinsic
height is zero; first fit to the container width, and if the resulting height
exceeds the container switch to fitting the height; then center both axes. -/
def fitGallery (imgW imgH : ℚ) : Placement :=
  let aspect : ℚ := if imgH = 0 then 1 else imgW / imgH
  let dispW0 : ℚ := 297
  let dispH0 : ℚ := dispW0 / aspect
  let dispH : ℚ := if dispH0 > 210 then 210 else dispH0
  let dispW : ℚ := if dispH0 > 210 then dispH * aspect else dispW0
  { dispW := dispW, dispH := dispH
    posX := (297 - dispW) / 2, posY := (210 - dispH) / 2 }

/-- Claim C1: for every gallery image with positive intrinsic pixel size
(the data model guarantees both dimensions positive, and `Hi > 0` is the
claim's hypothesis), the computed placement on the 297 x 210 full-bleed page
is contained (`Wd ≤ 297`, `Hd ≤ 210`), has positive displayed height,
preserves the aspect ratio (`Wd / Hd = Wi / Hi`), and is centered on both
axes (`x = (297 - Wd)/2`, `y = (210 - Hd)/2`). -/
theorem fitGallery_contain_centered (wi hi : ℚ) (hw : 0 < wi) (hh : 0 < hi) :
    (fitGallery wi hi).dispW ≤ 297 ∧ (fitGallery wi hi).dispH ≤ 210 ∧
    0 < (fitGallery wi hi).dispH ∧
    (fitGallery wi hi).dispW / (fitGallery wi hi).dispH = wi / hi ∧
    (fitGallery wi hi).posX = (297 - (fitGallery wi hi).dispW) / 2 ∧
    (fitGallery wi hi).posY = (210 - (fitGallery wi hi).dispH) / 2 := by
  have hne : hi ≠ 0 := ne_of_gt hh
  have ha : 0 < wi / hi := div_pos hw hh
  have hane : wi / hi ≠ 0 := ne_of_gt ha
  unfold fitGallery
  simp only [if_neg hne]
  by_cases hc : 297 / (wi / hi) > 210
  · simp only [if_pos hc]
    have hlt : 210 * (wi / hi) < 297 := by
      rw [gt_iff_lt, lt_div_iff₀ ha] at hc
      linarith
    refine ⟨by linarith, le_refl _, by norm_num, ?_, trivial, trivial⟩
    rw [mul_comm]
    field_simp
    ring
  · simp only [if_neg hc]
    push_neg at hc
    have hpos : 0 < 297 / (wi / hi) := by positivity
    refine ⟨le_refl _, hc, hpos, ?_, trivial, trivial⟩
    rw [div_div_eq_mul_div, mul_comm, mul_div_assoc, div_self (by norm_num), mul_one]

/-- Witness for C1 at a concrete 800 x 600 (4:3) image. -/
theorem fitGallery_contain_centered_witness :
    0 < (800 : ℚ) ∧ 0 < (600 : ℚ) ∧
    ((fitGallery 800 600).dispW ≤ 297 ∧ (fitGallery 800 600).dispH ≤ 210 ∧
     0 < (fitGallery 800 600).dispH ∧
     (fitGallery 800 600).dispW / (fitGallery 800 600).dispH = 800 / 600 ∧
     (fitGallery 800 600).posX = (297 - (fitGallery 800 600).dispW) / 2 ∧
     (fitGallery 800 600).posY = (210 - (fitGallery 800 600).dispH) / 2) :=
  ⟨by norm_num, by norm_num,
   fitGallery_contain_centered 800 600 (by norm_num) (by norm_num)⟩

/-- Claim C9: an image with intrinsic height zero is scaled with aspect ratio
1.0 (same placement as a genuinely square image) instead of dividing by the
height; the result is still contained and centered: a 210 x 210 square at
x = 43.5, y = 0. -/
theorem fitGallery_zero_height (wi : ℚ) :
    fitGallery wi 0 = fitGallery 1 1 ∧
    fitGallery wi 0 = { dispW := 210, dispH := 210, posX := 87 / 2, posY := 0 } ∧
    (fitGallery wi 0).dispW ≤ 297 ∧ (fitGallery wi 0).dispH ≤ 210 ∧
    (fitGallery wi 0).posX = (297 - (fitGallery wi 0).dispW) / 2 ∧
    (fitGallery wi 0).posY = (210 - (fitGallery wi 0).dispH) / 2 := by
  refine ⟨?_, ?_, ?_, ?_, ?_, ?_⟩ <;> norm_num [fitGallery]

/-- The bullet glyph U+2022 used by the source both as a character to
normalize away in `safe_text` and as the marker prepended when
default-bulletizing multi-line fields. -/
def bulletGlyph : Char := Char.ofNat 0x2022

/-- Python `str.strip()` whitespace test, restricted to the whitespace
characters that can actually occur in the engine's latin-1 text. -/
def isPySpace (c : Char) : Bool :=
  c = Char.ofNat 32 || c = Char.ofNat 9 || c = Char.ofNat 10 ||
    c = Char.ofNat 13 || c = Char.ofNat 11 || c = Char.ofNat 12

/-- Python `str.strip()`: drop leading and trailing whitespace.  Defined on
raw character lists so that every use kernel-reduces. -/
def strTrim (s : String) : String :=
  String.mk (((s.toList.dropWhile isPySpace).reverse.dropWhile isPySpace).reverse)

/-- `s.split('\n')` on character lists: split at every newline, keeping
empty pieces, exactly like Python `str.split` with an explicit separator. -/
def splitLinesAux : List Char → List Char → List (List Char)
  | [], acc => [acc.reverse]
  | c :: cs, acc =>
      if c = Char.ofNat 10 then acc.reverse :: splitLinesAux cs []
      else splitLinesAux cs (c :: acc)

/-- Python `s.split('\n')`. -/
def splitLines (s : String) : List String :=
  (splitLinesAux s.toList []).map String.mk

/-- Python `'\n'.join(ls)`. -/
def joinLines (ls : List String) : String :=
  String.mk (((ls.map String.toList).intersperse [Char.ofNat 10]).flatten)

/-- Whether the string starts with the given character (Python
`startswith` with a one-character pattern). -/
def headIs (s : String) (c : Char) : Bool :=
  match s.toList with
  | [] => false
  | d :: _ => d == c

/-- Single substitution step of `safe_text` (src/app.py line 168): smart
punctuation is mapped to a plain-ASCII equivalent; every other character is
kept unchanged. -/
def safeCharSub (c : Char) : List Char :=
  if c = bulletGlyph then [Char.ofNat 45]
  else if c = Char.ofNat 0x2013 then [Char.ofNat 45]
  else if c = Char.ofNat 0x2014 then [Char.ofNat 45]
  else if c = Char.ofNat 0x201C then [Char.ofNat 34]
  else if c = Char.ofNat 0x201D then [Char.ofNat 34]
  else if c = Char.ofNat 0x2018 then [Char.ofNat 39]
  else if c = Char.ofNat 0x2019 then [Char.ofNat 39]
  else if c = Char.ofNat 0x2026 then [Char.ofNat 46, Char.ofNat 46, Char.ofNat 46]
  else if c = Char.ofNat 0x202F then [Char.ofNat 32]
  else if c = Char.ofNat 0x00A0 then [Char.ofNat 32]
  else [c]

/-- Embeds `safe_text` (src/app.py lines 166-170): empty input is returned
as-is, smart punctuation is substituted, and the final latin-1 encode with
`ignore` drops every character above code point 255. -/
def safeText (s : String) : String :=
  if s = "" then ""
  else String.mk ((s.toList.map safeCharSub).flatten.filter (fun c => c.toNat < 256))

/-- Tag of a rendered paragraph unit: gold bullet with indented text, or
plain full-width text. -/
inductive ParaTag where
  | bullet
  | plain
  deriving DecidableEq, Repr

/-- One paragraph unit as rendered by `print_block`: its tag and the text
that is actually drawn. -/
structure ParaUnit where
  tag : ParaTag
  text : String
  deriving DecidableEq, Repr

/-- Embeds the nested `is_bullet` helper (src/app.py lines 514-515): the
trimmed line starts with a hyphen, the bullet glyph, or an asterisk. -/
def isBulletLine (l : String) : Bool :=
  headIs (strTrim l) (Char.ofNat 45) || headIs (strTrim l) bulletGlyph ||
    headIs (strTrim l) (Char.ofNat 42)

/-- Embeds `l.lstrip('-•* ').strip()` (src/app.py line 537): drop leading
marker characters and spaces, then trim. -/
def stripBulletChars (l : String) : String :=
  strTrim (String.mk (l.toList.dropWhile
    (fun c => c = Char.ofNat 45 || c = bulletGlyph || c = Char.ofNat 42 ||
      c = Char.ofNat 32)))

/-- ASCII uppercase transform standing in for Python `str.upper()` (all
strings the engine feeds it are latin-1 after `safe_text`). -/
def upperAscii (s : String) : String := String.mk (s.toList.map Char.toUpper)

/-- Embeds the paragraph segmentation and classification of `print_block`
(src/app.py lines 507-573): sanitize the content, split on newlines; when
there are at least two lines, trim each, drop empties and prepend a bullet
glyph to lines lacking a marker (default-bulletize); a single line is left
untouched; then each remaining nonempty trimmed line is rendered as a
`bullet` unit (marker characters stripped, optional uppercase) when it
starts with a marker, else as a `plain` unit. -/
def printBlockUnits (uppercase : Bool) (content : String) : List ParaUnit :=
  let txt := safeText content
  let lines := splitLines txt
  let processed :=
    if 1 < lines.length then
      (lines.map strTrim).filterMap (fun l =>
        if l = "" then none
        else if isBulletLine l then some l
        else some (String.singleton bulletGlyph ++ " " ++ l))
    else lines
  let processed := if processed = [] then [txt] else processed
  processed.filterMap (fun l0 =>
    let l := strTrim l0
    if l = "" then none
    else if isBulletLine l then
      some { tag := ParaTag.bullet
             text := if uppercase then upperAscii (stripBulletChars l)
                     else stripBulletChars l }
    else
      some { tag := ParaTag.plain
             text := if uppercase then upperAscii l else l })

/-- Embeds the `valid_sections` filter of `print_dual_column_blocks`
(src/app.py line 471): keep the (name, content) pairs whose content is truthy
and whose stripped content is truthy. -/
def validSections (sections : List (String × String)) : List (String × String) :=
  sections.filter (fun nc => !(nc.2 == "") && !((strTrim nc.2) == ""))

/-- Embeds the left/right distribution of `print_dual_column_blocks`
(src/app.py lines 585-588): `mid = (n + 1) // 2`, the first `mid` valid
sections go to the left column, the rest to the right column. -/
def splitColumns (valid : List (String × String)) :
    List (String × String) × List (String × String) :=
  let mid := (valid.length + 1) / 2
  (valid.take mid, valid.drop mid)

/-- Embeds the line-list half split used for the avionics and equipment
sections (src/app.py lines 636-642 and 649-654): strip and drop empty lines,
put the first `(n + 1) // 2` lines in a left synthetic section and the rest
in a right one, both with empty titles. -/
def halfSplitSections (text : String) : List (String × String) :=
  let ls := ((splitLines text).map strTrim).filter (fun x => !(x == ""))
  let half := (ls.length + 1) / 2
  [("", joinLines (ls.take half)), ("", joinLines (ls.drop half))]

/-- The paragraph units rendered in the left and right columns of the
avionics section: the half-split sections are filtered and distributed by
`print_dual_column_blocks`, and each column's blocks are rendered by
`print_block` with the uppercase transform (src/app.py line 643). -/
def aviColumnUnits (avi : String) : List ParaUnit × List ParaUnit :=
  let valid := validSections (halfSplitSections avi)
  let cols := splitColumns valid
  ((cols.1.map (fun nc => if nc.2 == "" then [] else printBlockUnits true nc.2)).flatten,
   (cols.2.map (fun nc => if nc.2 == "" then [] else printBlockUnits true nc.2)).flatten)

/-- Counterexample to claim C2: the single-line field "- Title" is not
rendered as one `plain` unit with the text verbatim; the render loop of
`print_block` still recognizes the leading marker, draws a bullet, and strips
the marker characters. -/
theorem singleLine_marker_not_plain :
    printBlockUnits false "- Title" = [{ tag := ParaTag.bullet, text := "Title" }] ∧
    printBlockUnits false "- Title" ≠ [{ tag := ParaTag.plain, text := "- Title" }] := by
  constructor
  · decide
  · decide

/-- Claim C2 as amended: a text field whose content splits to a single line
with nonempty trimmed text yields exactly one Paragraph Unit; it is `plain`
and verbatim (up to trimming) only when the line does not start with a
bullet marker; a single line starting with a marker is rendered as a
`bullet` unit with the marker characters stripped. -/
theorem singleLine_unit (s : String)
    (h1 : splitLines (safeText s) = [safeText s])
    (h2 : strTrim (safeText s) ≠ "") :
    (isBulletLine (strTrim (safeText s)) = false →
      printBlockUnits false s = [{ tag := ParaTag.plain, text := strTrim (safeText s) }]) ∧
    (isBulletLine (strTrim (safeText s)) = true →
      printBlockUnits false s =
        [{ tag := ParaTag.bullet, text := stripBulletChars (strTrim (safeText s)) }]) := by
  constructor <;> intro hb <;>
    simp [printBlockUnits, h1, if_neg h2, hb]

/-- Witness for the amended C2 at the single-line fields "Title" (plain) and
"- Title" (bullet). -/
theorem singleLine_unit_witness :
    printBlockUnits false "Title" = [{ tag := ParaTag.plain, text := "Title" }] ∧
    printBlockUnits false "- Title" = [{ tag := ParaTag.bullet, text := "Title" }] := by
  constructor
  · have h := (singleLine_unit "Title" (by decide) (by decide)).1 (by decide)
    exact h.trans (by decide)
  · have h := (singleLine_unit "- Title" (by decide) (by decide)).2 (by decide)
    exact h.trans (by decide)

/-- Counterexample to claim C3: for the avionics field
"Item A\nItem B\nItem C" the three paragraph units are not all tagged
`bullet`: the right column's single unit is `plain`. -/
theorem avionics_three_items_not_all_bullets :
    (aviColumnUnits "Item A\nItem B\nItem C").2.map ParaUnit.tag = [ParaTag.plain] ∧
    ((aviColumnUnits "Item A\nItem B\nItem C").1 ++
      (aviColumnUnits "Item A\nItem B\nItem C").2).map ParaUnit.tag ≠
      [ParaTag.bullet, ParaTag.bullet, ParaTag.bullet] := by
  constructor
  · decide
  · decide

/-- Claim C3 as amended: the avionics field "Item A\nItem B\nItem C"
produces exactly 3 paragraph units distributed 2 to the left column and 1 to
the right; the two left units are rendered as bullets (default-bulletized),
but the right column's half is a single line and is rendered `plain`. -/
theorem avionics_three_items :
    (aviColumnUnits "Item A\nItem B\nItem C").1 =
      [{ tag := ParaTag.bullet, text := "ITEM A" },
       { tag := ParaTag.bullet, text := "ITEM B" }] ∧
    (aviColumnUnits "Item A\nItem B\nItem C").2 =
      [{ tag := ParaTag.plain, text := "ITEM C" }] ∧
    (aviColumnUnits "Item A\nItem B\nItem C").1.length +
      (aviColumnUnits "Item A\nItem B\nItem C").2.length = 3 := by
  refine ⟨by decide, by decide, by decide⟩

/-- Claim C6: for every section list handed to the two-column planner, the
valid (non-empty) subsections of length n are split positionally: the left
group is exactly the first `ceil(n/2) = (n+1)/2` of them, the right group the
remaining `floor(n/2) = n/2`, and left ++ right reproduces the valid list in
order. -/
theorem splitColumns_balance (sections : List (String × String)) :
    (splitColumns (validSections sections)).1.length =
      ((validSections sections).length + 1) / 2 ∧
    (splitColumns (validSections sections)).2.length =
      (validSections sections).length / 2 ∧
    (splitColumns (validSections sections)).1 =
      (validSections sections).take (((validSections sections).length + 1) / 2) ∧
    (splitColumns (validSections sections)).1 ++ (splitColumns (validSections sections)).2 =
      validSections sections := by
  unfold splitColumns
  refine ⟨?_, ?_, rfl, List.take_append_drop _ _⟩
  · rw [List.length_take]
    omega
  · rw [List.length_drop]
    omega

/-- One keySpecs entry: label and value strings. -/
structure SpecItem where
  label : String
  value : String
  deriving DecidableEq, Repr

/-- Embeds the spec-grid loop of `generate_brochure_pdf`
(src/app.py lines 338-342): cards are drawn in list order, two per row
(`x = 15` or `75`), each row 22 units tall starting from `y_start`; the loop
`break`s at the first index whose row position `y_start + (i // 2) * 22`
exceeds 180, so nothing after that index is drawn. -/
def specGridGo (yStart : ℚ) : ℕ → List SpecItem → List SpecItem
  | _, [] => []
  | i, s :: rest =>
      if yStart + ((i / 2 : ℕ) : ℚ) * 22 > 180 then []
      else s :: specGridGo yStart (i + 1) rest

/-- The keySpecs cards actually drawn on the specs page. -/
def renderedSpecs (specs : List SpecItem) (yStart : ℚ) : List SpecItem :=
  specGridGo yStart 0 specs

/-- `specGridGo` from any starting index yields a prefix of its input, cut at
the first card whose row position exceeds 180. -/
theorem specGridGo_take (yStart : ℚ) (specs : List SpecItem) :
    ∀ i : ℕ, ∃ k, k ≤ specs.length ∧
      specGridGo yStart i specs = specs.take k ∧
      (∀ j, j < k → ¬ (yStart + (((i + j) / 2 : ℕ) : ℚ) * 22 > 180)) ∧
      (k < specs.length → yStart + (((i + k) / 2 : ℕ) : ℚ) * 22 > 180) := by
  induction specs with
  | nil =>
      intro i
      exact ⟨0, Nat.le_refl _, rfl, fun j hj => absurd hj (Nat.not_lt_zero j),
        fun h => absurd h (Nat.not_lt_zero 0)⟩
  | cons s rest ih =>
      intro i
      by_cases hc : yStart + ((i / 2 : ℕ) : ℚ) * 22 > 180
      · refine ⟨0, Nat.zero_le _, ?_, fun j hj => absurd hj (Nat.not_lt_zero j), ?_⟩
        · simp [specGridGo, hc]
        · intro _
          simpa using hc
      · obtain ⟨k, hk, heq, hall, hstop⟩ := ih (i + 1)
        refine ⟨k + 1, by simpa using Nat.succ_le_succ hk, ?_, ?_, ?_⟩
        · simp [specGridGo, hc, heq]
        · intro j hj
          cases j with
          | zero => simpa using hc
          | succ j2 =>
              have h := hall j2 (by omega)
              have hidx : i + 1 + j2 = i + (j2 + 1) := by omega
              rwa [hidx] at h
        · intro hlt
          rw [List.length_cons] at hlt
          have h := hstop (by omega)
          have hidx : i + 1 + k = i + (k + 1) := by omega
          rwa [hidx] at h

/-- Claim C7: for every keySpecs list and starting y, the rendered spec
cards are a prefix of the input list (stable order, earliest items win): the
loop stops, without error and without starting a new page, exactly at the
first card whose row position `y_start + (i // 2) * 22` exceeds the usable
threshold 180, and every drawn card's row position is within the threshold. -/
theorem renderedSpecs_prefix_drop (specs : List SpecItem) (yStart : ℚ) :
    ∃ k, k ≤ specs.length ∧
      renderedSpecs specs yStart = specs.take k ∧
      (∀ j, j < k → ¬ (yStart + ((j / 2 : ℕ) : ℚ) * 22 > 180)) ∧
      (k < specs.length → yStart + ((k / 2 : ℕ) : ℚ) * 22 > 180) := by
  obtain ⟨k, hk, heq, hall, hstop⟩ := specGridGo_take yStart specs 0
  exact ⟨k, hk, heq, by simpa using hall, by simpa using hstop⟩

/-- One maintenanceStatus entry; an absent field is the empty string (a
missing key reads as falsy `None` in the source). -/
structure MaintItem where
  inspection : String
  lastPerformed : String
  nextDue : String
  deriving DecidableEq, Repr

/-- Embeds the row filter of the maintenance section (src/app.py line 662):
keep rows where at least one of the three fields is truthy. -/
def maintRowKept (m : MaintItem) : Bool :=
  !(m.inspection == "") || !(m.lastPerformed == "") || !(m.nextDue == "")

/-- The `valid_maint` list of `generate_brochure_pdf` (src/app.py line 662). -/
def validMaint (maint : List MaintItem) : List MaintItem :=
  maint.filter maintRowKept

/-- One selected image asset: decoded pixel dimensions (Python floats are
modelled as rationals).  The first of the selection is the cover hero. -/
structure ImageAsset where
  width : ℚ
  height : ℚ
  deriving DecidableEq, Repr

/-- The AssetRecord consumed by `generate_brochure_pdf`: an absent or null
field is the empty string / empty list, matching the falsy `data.get(...)`
reads in the source. -/
structure AssetRecord where
  make : String
  model : String
  year : String
  tagline : String
  description : String
  highlights : List String
  keySpecs : List SpecItem
  airframe : String
  engines : String
  apu : String
  avionics : String
  equipment : String
  maintenanceStatus : List MaintItem
  interior : String
  exterior : String
  deriving DecidableEq, Repr

/-- Which logical section a generated page belongs to. -/
inductive PageKind where
  | cover
  | specsSummary
  | gallery (idx : ℕ)
  | dualCol (title : String)
  | maintenance
  | contact
  deriving DecidableEq, Repr

/-- One generated page: its section kind and whether the corner logo mark is
stamped on it (`draw_logo`, drawn last, only when branding is shown). -/
structure Page where
  kind : PageKind
  logo : Bool
  deriving DecidableEq, Repr

/-- One drawing operation (a `cell`/`multi_cell` line) of height `h` under
fpdf2's automatic page break, as configured by the source
(`set_auto_page_break(True, margin=15)`, src/app.py lines 316, 477, 665):
with trigger `y + h > 210 - 15 = 195` the library adds a page and continues
at the top margin 10, so the line lands at `10 + h`; state is
(cursor y, pages added so far).  Every vertical quantity in these flows is a
small integer, exactly representable in the source's floats, so the model
uses `ℕ`. -/
def autoStep (h : ℕ) (st : ℕ × ℕ) : ℕ × ℕ :=
  if st.1 + h > 195 then (10 + h, st.2 + 1) else (st.1 + h, st.2)

/-- `n` successive drawing operations of height `h`. -/
def autoSteps (h : ℕ) : ℕ → ℕ × ℕ → ℕ × ℕ
  | 0, st => st
  | n + 1, st => autoSteps h n (autoStep h st)

/-- Vertical flow of one `print_block` call (src/app.py lines 492-578):
a title cell of height 6 when the subsection is named (line 498), then one
height-5 line per rendered text line (`cell`/`multi_cell` at lines 546, 563,
572), each subject to the automatic page break; the returned cursor is the
final y plus 5 (line 578).  `nLines` is the block's rendered line count (its
paragraph-unit count when no line wraps), abstracting the library's text
metrics.  Returns (returned y_cursor, automatic pages added). -/
def printBlockFlow (name : String) (nLines : ℕ) (startY : ℕ) : ℕ × ℕ :=
  let st1 := if name = "" then (startY, 0) else autoStep 6 (startY, 0)
  let st2 := autoSteps 5 nLines st1
  (st2.1 + 5, st2.2)

/-- Column layout state of `print_dual_column_blocks`: the running cursor
`y_cursor`, the `initial_y` from which the right column will start, and the
pages completed so far within the section, in order — `true` for a page left
by the explicit `y_cursor > 180` break (stamped with the logo when branding
is shown, src/app.py lines 596-597), `false` for a page left by an automatic
mid-block break (never stamped: the class has no header and `draw_logo` is
not called there). -/
structure ColCursor where
  y : ℕ
  initialY : ℕ
  stamps : List Bool
  deriving DecidableEq, Repr

/-- Embeds the left-column loop of `print_dual_column_blocks`
(src/app.py lines 593-602): for each section with truthy content, if the
cursor is past 180 a new page is started explicitly and both `y_cursor` and
`initial_y` are reset to 20; then `print_block` runs, advancing the cursor
and possibly adding automatic pages mid-block (which leave `initial_y`
untouched).  `nl` gives each block's rendered line count. -/
def layoutLeftColumn (nl : String → String → ℕ) :
    List (String × String) → ColCursor → ColCursor
  | [], st => st
  | nc :: rest, st =>
      if nc.2 = "" then layoutLeftColumn nl rest st
      else
        let st1 : ColCursor :=
          if st.y > 180 then
            { y := 20, initialY := 20, stamps := st.stamps ++ [true] }
          else st
        let pb := printBlockFlow nc.1 (nl nc.1 nc.2) st1.y
        layoutLeftColumn nl rest
          { y := pb.1, initialY := st1.initialY
            stamps := st1.stamps ++ List.replicate pb.2 false }

/-- Embeds the right-column loop (src/app.py lines 604-609): no explicit
overflow check, only `print_block` calls whose automatic breaks complete
further pages; state is (cursor y, completed-page stamps so far). -/
def layoutRightColumn (nl : String → String → ℕ) :
    List (String × String) → ℕ × List Bool → ℕ × List Bool
  | [], st => st
  | nc :: rest, st =>
      if nc.2 = "" then layoutRightColumn nl rest st
      else
        let pb := printBlockFlow nc.1 (nl nc.1 nc.2) st.1
        layoutRightColumn nl rest (pb.1, st.2 ++ List.replicate pb.2 false)

/-- The left-column layout of a two-column section, from the section start
(title at y = 20 of height 10, then `ln(10)`, so the body starts at y = 40). -/
def leftColumnFinal (nl : String → String → ℕ)
    (sections : List (String × String)) : ColCursor :=
  layoutLeftColumn nl (splitColumns (validSections sections)).1
    { y := 40, initialY := 40, stamps := [] }

/-- Where the right column starts after the left column is laid out
(src/app.py line 604): `y_cursor_right = initial_y`, on the current page —
the one past every page the left column completed (explicitly or
automatically). -/
def rightColumnStart (nl : String → String → ℕ)
    (sections : List (String × String)) : ℕ × ℕ :=
  ((leftColumnFinal nl sections).initialY,
   (leftColumnFinal nl sections).stamps.length)

/-- Rendered line count of a `print_block` content when no line wraps: one
line per paragraph unit. -/
def noWrapLines (upper : Bool) : String → String → ℕ :=
  fun _ content => (printBlockUnits upper content).length

/-- A 30-line airframe description: each line one short word, so
`noWrapLines` is its exact rendered line count. -/
def longAirframe : String := joinLines (List.replicate 30 "ITEM")

/-- Counterexample to claim C4: with a 30-line airframe subsection, the
left-column group (airframe, engines) triggers an automatic page break
mid-block (the 30th bullet line would start at y = 191 and 191 + 5 > 195),
`print_block` returns y = 20 on the auto-added page, the explicit
`y_cursor > 180` check never fires, and the right column starts at
`initial_y = 40` on page 1 of the section — not on page 0 where it starts
when no overflow occurs: left-column overflow does move the right column's
starting page. -/
theorem rightColumnStart_moved_by_overflow :
    rightColumnStart (noWrapLines false)
      [("Airframe", longAirframe), ("Engines", "Two engines"), ("APU", "One APU")] =
      (40, 1) ∧
    ((40, 1) : ℕ × ℕ) ≠ (40, 0) := by
  constructor
  · set_option maxRecDepth 4000 in decide
  · decide

/-- Pages already completed are still in the stamp list after laying out
more left-column sections: the loop only appends. -/
theorem layoutLeftColumn_mem_stamps (nl : String → String → ℕ) :
    ∀ (secs : List (String × String)) (y iy : ℕ) (stamps : List Bool) (b : Bool),
      b ∈ stamps →
      b ∈ (layoutLeftColumn nl secs { y := y, initialY := iy, stamps := stamps }).stamps := by
  intro secs
  induction secs with
  | nil => intro y iy stamps b hb; exact hb
  | cons nc rest ih =>
      intro y iy stamps b hb
      by_cases hc : nc.2 = ""
      · simpa [layoutLeftColumn, hc] using ih y iy stamps b hb
      · by_cases hy : y > 180
        · simp only [layoutLeftColumn, if_neg hc, if_pos hy]
          exact ih _ _ _ b
            (List.mem_append_left _ (List.mem_append_left _ hb))
        · simp only [layoutLeftColumn, if_neg hc, if_neg hy]
          exact ih _ _ _ b (List.mem_append_left _ hb)

/-- Invariant of the left-column loop: either no explicit break happened,
`initial_y` is unchanged and any `true` stamp was already there, or an
explicit break happened, `initial_y` is 20 and a `true` stamp is present. -/
theorem layoutLeftColumn_dichotomy (nl : String → String → ℕ) :
    ∀ (secs : List (String × String)) (y iy : ℕ) (stamps : List Bool),
      ((layoutLeftColumn nl secs { y := y, initialY := iy, stamps := stamps }).initialY = iy ∧
        (true ∈ (layoutLeftColumn nl secs { y := y, initialY := iy, stamps := stamps }).stamps →
          true ∈ stamps)) ∨
      ((layoutLeftColumn nl secs { y := y, initialY := iy, stamps := stamps }).initialY = 20 ∧
        true ∈ (layoutLeftColumn nl secs { y := y, initialY := iy, stamps := stamps }).stamps) := by
  intro secs
  induction secs with
  | nil => intro y iy stamps; exact Or.inl ⟨rfl, fun h => h⟩
  | cons nc rest ih =>
      intro y iy stamps
      by_cases hc : nc.2 = ""
      · simpa [layoutLeftColumn, hc] using ih y iy stamps
      · by_cases hy : y > 180
        · simp only [layoutLeftColumn, if_neg hc, if_pos hy]
          have hmem := layoutLeftColumn_mem_stamps nl rest
            (printBlockFlow nc.1 (nl nc.1 nc.2) 20).1 20
            ((stamps ++ [true]) ++
              List.replicate (printBlockFlow nc.1 (nl nc.1 nc.2) 20).2 false) true
            (List.mem_append_left _ (List.mem_append_right _ (List.mem_singleton.mpr rfl)))
          rcases ih (printBlockFlow nc.1 (nl nc.1 nc.2) 20).1 20
            ((stamps ++ [true]) ++
              List.replicate (printBlockFlow nc.1 (nl nc.1 nc.2) 20).2 false) with
            ⟨h1, _⟩ | ⟨h1, _⟩
          · exact Or.inr ⟨h1, hmem⟩
          · exact Or.inr ⟨h1, hmem⟩
        · simp only [layoutLeftColumn, if_neg hc, if_neg hy]
          rcases ih (printBlockFlow nc.1 (nl nc.1 nc.2) y).1 iy
            (stamps ++ List.replicate (printBlockFlow nc.1 (nl nc.1 nc.2) y).2 false) with
            ⟨h1, h2⟩ | ⟨h1, h2⟩
          · refine Or.inl ⟨h1, fun ht => ?_⟩
            rcases List.mem_append.mp (h2 ht) with h | h
            · exact h
            · exact absurd (List.eq_of_mem_replicate h) (by simp)
          · exact Or.inr ⟨h1, h2⟩

/-- Claim C4 as amended: the left and right cursors are held in separate
variables, but the right column starts at `initial_y` on the page the left
column ended on (the one after every page the left group completed, whether
by the explicit `y_cursor > 180` break or by fpdf2's automatic mid-block
break at y = 195).  `initial_y` is the section start 40 exactly when no
explicit break occurred, and 20 exactly when one did; an automatic break
leaves it at 40 while still moving the right column to a later page. -/
theorem rightColumnStart_cases (nl : String → String → ℕ)
    (sections : List (String × String)) :
    rightColumnStart nl sections =
      ((leftColumnFinal nl sections).initialY,
        (leftColumnFinal nl sections).stamps.length) ∧
    (((leftColumnFinal nl sections).initialY = 40 ∧
        true ∉ (leftColumnFinal nl sections).stamps) ∨
     ((leftColumnFinal nl sections).initialY = 20 ∧
        true ∈ (leftColumnFinal nl sections).stamps)) := by
  refine ⟨rfl, ?_⟩
  rcases layoutLeftColumn_dichotomy nl (splitColumns (validSections sections)).1
      40 40 [] with ⟨h1, h2⟩ | ⟨h1, h2⟩
  · exact Or.inl ⟨h1, fun ht => by simpa using h2 ht⟩
  · exact Or.inr ⟨h1, h2⟩

/-- Completed-page stamp pattern of one `print_dual_column_blocks` call:
the left-column pages (explicit breaks stamped, automatic ones not), then
the right column's automatic pages (never stamped), then the section's final
page, stamped at the end of the call (src/app.py lines 611-612).  An entry
is `true` when `draw_logo` runs for that page under the `full` variant. -/
def dualColStampPattern (nl : String → String → ℕ)
    (sections : List (String × String)) : List Bool :=
  (layoutRightColumn nl (splitColumns (validSections sections)).2
    ((leftColumnFinal nl sections).initialY, (leftColumnFinal nl sections).stamps)).2
  ++ [true]

/-- Pages emitted by one `print_dual_column_blocks` call
(src/app.py lines 469-612): none when no valid section remains; otherwise
one page per stamp-pattern entry, the logo mark present exactly where the
pattern says so and branding is shown. -/
def dualColPages (nl : String → String → ℕ) (sections : List (String × String))
    (title : String) (showBranding : Bool) : List Page :=
  if validSections sections = [] then []
  else (dualColStampPattern nl sections).map
    (fun t => { kind := PageKind.dualCol title, logo := t && showBranding })

/-- Stamp pattern of a section that draws its logo only at its end
(specs-summary, src/app.py lines 403-404; maintenance, lines 692-693):
`autoBreaks` automatically-added unstamped pages, then the stamped final
page. -/
def sectionStampPattern (autoBreaks : ℕ) : List Bool :=
  List.replicate autoBreaks false ++ [true]

/-- Automatic page breaks while rendering the maintenance table
(src/app.py lines 683-690): rows of three height-7 cells starting at y = 46
(title at 20 height 10, `ln(8)`, header row height 8), each row one
height-7 drawing step. -/
def maintAutoBreaks (nRows : ℕ) : ℕ :=
  (autoSteps 7 nRows (46, 0)).2

/-- The named subsections of the "Technical Specifications (Cont.)" section
(src/app.py lines 617-621). -/
def techSections (d : AssetRecord) : List (String × String) :=
  [("Airframe", d.airframe), ("Engines", d.engines), ("APU", d.apu)]

/-- The named subsections of the "Configuration Details" section
(src/app.py lines 698-701). -/
def configSections (d : AssetRecord) : List (String × String) :=
  [("Interior", d.interior), ("Exterior", d.exterior)]

/-- The pages of `generate_brochure_pdf` before the conditional contact page
(src/app.py lines 262-702), as a function of the record, the images and the
branding flag.  `nl` abstracts each block's rendered line count (per
uppercase flag, as the source passes it per section) and `specsBreaks` the
automatic page breaks fired while rendering the specs-summary page's
description and highlights — both are text-metric quantities identical
across variants.  Logo stamps follow the `draw_logo` call sites: cover
(lines 302-303) and gallery pages (463-464) always under branding; section
pages per their stamp patterns; pages left by automatic breaks never. -/
def generateBody (nl : Bool → String → String → ℕ) (specsBreaks : ℕ)
    (d : AssetRecord) (imgs : List ImageAsset) (branding : Bool) : List Page :=
  [{ kind := PageKind.cover, logo := branding }]
  ++ (if d.keySpecs ≠ [] ∨ d.description ≠ "" ∨ d.highlights ≠ [] then
        (sectionStampPattern specsBreaks).map
          (fun t => { kind := PageKind.specsSummary, logo := t && branding })
      else [])
  ++ (if 1 < imgs.length then
        (List.range (imgs.length - 1)).map
          (fun i => { kind := PageKind.gallery i, logo := branding }) else [])
  ++ dualColPages (nl false) (techSections d) "Technical Specifications (Cont.)"
      branding
  ++ dualColPages (nl true) (halfSplitSections d.avionics) "Avionics" branding
  ++ dualColPages (nl false) (halfSplitSections d.equipment) "Equipment" branding
  ++ (if validMaint d.maintenanceStatus ≠ [] then
        (sectionStampPattern (maintAutoBreaks (validMaint d.maintenanceStatus).length)).map
          (fun t => { kind := PageKind.maintenance, logo := t && branding })
      else [])
  ++ dualColPages (nl false) (configSections d) "Configuration Details" branding

/-- The full page sequence of `generate_brochure_pdf`: the body, then, for
the `full` variant only, the trailing contact page, which carries no logo
mark (src/app.py lines 707-755). -/
def generatePages (nl : Bool → String → String → ℕ) (specsBreaks : ℕ)
    (d : AssetRecord) (imgs : List ImageAsset) (variant : String) : List Page :=
  generateBody nl specsBreaks d imgs (variant == "full")
  ++ (if variant == "full" then [{ kind := PageKind.contact, logo := false }] else [])

/-- Erase the branding mark of a page, keeping its structure. -/
def stripLogo (p : Page) : Page := { kind := p.kind, logo := false }

/-- Stripping the logo marks of a dual-column section gives the clean
variant's pages: branding affects only the stamps, never the layout. -/
theorem dualColPages_strip (nl : String → String → ℕ)
    (sections : List (String × String)) (title : String) (b : Bool) :
    (dualColPages nl sections title b).map stripLogo =
      dualColPages nl sections title false := by
  by_cases hv : validSections sections = []
  · simp [dualColPages, hv]
  · simp only [dualColPages, if_neg hv, List.map_map]
    congr 1
    funext t
    simp [stripLogo, Function.comp]

/-- Stripping the logo marks of the document body gives the clean body:
the page sequence is variant-independent apart from the stamps. -/
theorem generateBody_strip (nl : Bool → String → String → ℕ) (specsBreaks : ℕ)
    (d : AssetRecord) (imgs : List ImageAsset) (b : Bool) :
    (generateBody nl specsBreaks d imgs b).map stripLogo =
      generateBody nl specsBreaks d imgs false := by
  simp only [generateBody, List.map_append, apply_ite (List.map stripLogo),
    List.map_map, List.map_cons, List.map_nil, dualColPages_strip]
  simp [stripLogo, Function.comp_def, Bool.and_false]

/-- The two variants expanded to body and conditional contact page. -/
theorem generatePages_eq_body (nl : Bool → String → String → ℕ) (specsBreaks : ℕ)
    (d : AssetRecord) (imgs : List ImageAsset) :
    generatePages nl specsBreaks d imgs "full" =
      generateBody nl specsBreaks d imgs true ++
        [{ kind := PageKind.contact, logo := false }] ∧
    generatePages nl specsBreaks d imgs "clean" =
      generateBody nl specsBreaks d imgs false := by
  constructor
  · rfl
  · show generateBody nl specsBreaks d imgs false ++ [] = _
    exact List.append_nil _

/-- Claim C5: for every record and image selection, the `full` document has
exactly one page more than the `clean` document, the extra page being the
trailing contact page; every other page is structurally identical between
the variants once the branding marks are erased (same section kinds in the
same order), and the clean document carries no logo mark anywhere. -/
theorem variant_contact_page (nl : Bool → String → String → ℕ) (specsBreaks : ℕ)
    (d : AssetRecord) (imgs : List ImageAsset) :
    (generatePages nl specsBreaks d imgs "full").length =
      (generatePages nl specsBreaks d imgs "clean").length + 1 ∧
    (generatePages nl specsBreaks d imgs "full").getLast? =
      some { kind := PageKind.contact, logo := false } ∧
    (generatePages nl specsBreaks d imgs "full").dropLast.map stripLogo =
      (generatePages nl specsBreaks d imgs "clean").map stripLogo ∧
    (generatePages nl specsBreaks d imgs "full").dropLast.map Page.kind =
      (generatePages nl specsBreaks d imgs "clean").map Page.kind ∧
    (∀ p ∈ generatePages nl specsBreaks d imgs "clean", p.logo = false) := by
  obtain ⟨hf, hc⟩ := generatePages_eq_body nl specsBreaks d imgs
  have hstrip := generateBody_strip nl specsBreaks d imgs true
  have hlen : (generateBody nl specsBreaks d imgs true).length =
      (generateBody nl specsBreaks d imgs false).length := by
    rw [← hstrip, List.length_map]
  have hdrop : (generatePages nl specsBreaks d imgs "full").dropLast =
      generateBody nl specsBreaks d imgs true := by
    rw [hf, List.dropLast_concat]
  refine ⟨?_, ?_, ?_, ?_, ?_⟩
  · rw [hf, hc, List.length_append, hlen]
    rfl
  · rw [hf, List.getLast?_concat]
  · rw [hdrop, hc, hstrip, generateBody_strip nl specsBreaks d imgs false]
  · have hks : Page.kind ∘ stripLogo = Page.kind := funext fun p => rfl
    rw [hdrop, hc, ← hstrip, List.map_map, hks]
  · intro p hp
    rw [hc, ← hstrip] at hp
    obtain ⟨q, _, rfl⟩ := List.mem_map.mp hp
    rfl

/-- Whether a page is a maintenance-table page. -/
def isMaintPage (p : Page) : Bool :=
  match p.kind with
  | PageKind.maintenance => true
  | _ => false

/-- Dual-column sections contribute no maintenance page. -/
theorem dualColPages_no_maint (nl : String → String → ℕ)
    (sections : List (String × String)) (title : String) (b : Bool) :
    List.countP isMaintPage (dualColPages nl sections title b) = 0 := by
  by_cases hv : validSections sections = []
  · simp [dualColPages, hv]
  · simp [dualColPages, hv, List.countP_map, isMaintPage, Function.comp_def]

/-- `countP` over a replicated list. -/
theorem countP_replicate {α : Type} (p : α → Bool) (n : ℕ) (a : α) :
    List.countP p (List.replicate n a) = if p a then n else 0 := by
  induction n with
  | zero => simp
  | succ n ih =>
      rw [List.replicate_succ, List.countP_cons, ih]
      by_cases hp : p a <;> simp [hp]

/-- Every page of the maintenance section counts as a maintenance page:
one per stamp-pattern entry, i.e. the automatic continuation pages plus the
final page. -/
theorem countP_maint_pattern (k : ℕ) (b : Bool) :
    List.countP isMaintPage ((sectionStampPattern k).map
      (fun t => { kind := PageKind.maintenance, logo := t && b })) = k + 1 := by
  simp [sectionStampPattern, List.countP_map, isMaintPage, Function.comp_def,
    List.countP_true, countP_replicate]

/-- Claim C8: a maintenanceStatus row is kept for rendering if and only if
at least one of its three fields is non-empty; the document carries no
maintenance page exactly when no row survives (an empty or wholly-empty
dataset suppresses the section), and when rows survive the section emits its
page — plus one continuation page per automatic break when the table
overruns y = 195. -/
theorem maintenance_filter_and_page (nl : Bool → String → String → ℕ)
    (specsBreaks : ℕ) (d : AssetRecord) (imgs : List ImageAsset)
    (variant : String) :
    (∀ m : MaintItem, m ∈ validMaint d.maintenanceStatus ↔
      (m ∈ d.maintenanceStatus ∧
        (m.inspection ≠ "" ∨ m.lastPerformed ≠ "" ∨ m.nextDue ≠ ""))) ∧
    ((List.countP isMaintPage (generatePages nl specsBreaks d imgs variant) = 0) ↔
      validMaint d.maintenanceStatus = []) ∧
    (validMaint d.maintenanceStatus ≠ [] →
      List.countP isMaintPage (generatePages nl specsBreaks d imgs variant) =
        maintAutoBreaks (validMaint d.maintenanceStatus).length + 1) := by
  have hcount : List.countP isMaintPage (generatePages nl specsBreaks d imgs variant) =
      if validMaint d.maintenanceStatus = [] then 0
      else maintAutoBreaks (validMaint d.maintenanceStatus).length + 1 := by
    simp only [generatePages, generateBody, List.countP_append, dualColPages_no_maint,
      apply_ite (List.countP isMaintPage)]
    by_cases hm : validMaint d.maintenanceStatus = []
    · simp [hm, List.countP_cons, isMaintPage, List.countP_map, Function.comp_def,
        countP_replicate]
    · simp [hm, List.countP_cons, isMaintPage, List.countP_map, Function.comp_def,
        sectionStampPattern, List.countP_true, countP_replicate]
  refine ⟨?_, ?_, ?_⟩
  · intro m
    simp [validMaint, maintRowKept, List.mem_filter]
    tauto
  · rw [hcount]
    by_cases hm : validMaint d.maintenanceStatus = [] <;> simp [hm]
  · intro hm
    rw [hcount, if_neg hm]

/-- The empty AssetRecord: every field absent. -/
def emptyRecord : AssetRecord :=
  { make := "", model := "", year := "", tagline := "", description := ""
    highlights := [], keySpecs := [], airframe := "", engines := "", apu := ""
    avionics := "", equipment := "", maintenanceStatus := []
    interior := "", exterior := "" }

/-- Claim C10: the cover page is emitted unconditionally: every generated
document starts with the cover, for any record, image selection and variant;
and the clean-variant document of the entirely empty record with no images
is exactly one page, the cover (no section has content, so no page break of
either kind can fire). -/
theorem cover_unconditional (nl : Bool → String → String → ℕ) (specsBreaks : ℕ)
    (d : AssetRecord) (imgs : List ImageAsset) (variant : String) :
    (generatePages nl specsBreaks d imgs variant).head? =
      some { kind := PageKind.cover, logo := variant == "full" } ∧
    generatePages nl specsBreaks emptyRecord [] "clean" =
      [{ kind := PageKind.cover, logo := false }] := by
  constructor
  · rfl
  · rfl
